import Mathlib

/-!
Shallow embedding of `src/final-project/state-machine-atm/src/atm.rs`.

The engine is the Rust function `next_state` of `impl StateMachine for Atm`.
`u64` values (the cash and the pin digests) are modelled as `Nat`; the only
arithmetic performed on them is subtraction, which in a Rust debug build
panics on underflow, so the engine is embedded as an `Option`-valued
function with `none` for the panic. The hashing primitive
(`crate::traits::hash`, an external collaborator applied to the `String`
rendering of the keystrokes) is a parameter `h : String → Nat` of the
embedding.
-/

namespace AtmSM

/-- The keys on the ATM keypad (Rust `enum Key`). -/
inductive Key : Type
  | One
  | Two
  | Three
  | Four
  | Enter
deriving DecidableEq, Repr

/-- Something you can do to the ATM (Rust `enum Action`). -/
inductive Action : Type
  | SwipeCard (pin_hash : Nat)
  | PressKey (key : Key)
deriving DecidableEq, Repr

/-- The various states of authentication possible with the ATM (Rust `enum Auth`). -/
inductive Auth : Type
  | Waiting
  | Authenticating (pin_hash : Nat)
  | Authenticated
deriving DecidableEq, Repr

/-- The ATM (Rust `struct Atm`). -/
structure Atm : Type where
  cash_inside : Nat
  expected_pin_hash : Auth
  keystroke_register : List Key
deriving DecidableEq, Repr

/-- The canonical textual rendering of a key (Rust `impl Display for Key`
and `impl From<Key> for &str`). -/
def Key.render : Key → String
  | Key.One => "1"
  | Key.Two => "2"
  | Key.Three => "3"
  | Key.Four => "4"
  | Key.Enter => "Enter"

/-- The string the Rust code feeds to `hash`: the concatenation of the
renderings of the keystrokes (`new_keystroke_register.iter().map(to_string).collect()`). -/
def pinString (ks : List Key) : String :=
  String.join (ks.map Key.render)

/-- Rust debug-build `u64` subtraction: defined exactly when no underflow
occurs, `none` models the overflow panic. -/
def csub (a b : Nat) : Option Nat :=
  if b ≤ a then some (a - b) else none

/-- The transition engine, translated from `Atm::next_state` in
`src/final-project/state-machine-atm/src/atm.rs`. The parameter `h` is the
hashing primitive. `none` models the arithmetic-underflow panic of the
unguarded `starting_state.cash_inside - 1`. -/
def next_state (h : String → Nat) (starting_state : Atm) (t : Action) : Option Atm :=
  match t with
  | Action.SwipeCard pin_hash =>
      match starting_state.expected_pin_hash with
      | Auth.Authenticating _ =>
          -- User swiped the card again while already authenticating
          some ⟨starting_state.cash_inside, Auth.Authenticating pin_hash,
                starting_state.keystroke_register⟩
      | _ =>
          -- First swipe: reset the keystroke register
          some ⟨starting_state.cash_inside, Auth.Authenticating pin_hash, []⟩
  | Action.PressKey key =>
      match starting_state.expected_pin_hash with
      | Auth.Waiting =>
          some ⟨starting_state.cash_inside, Auth.Waiting, []⟩
      | Auth.Authenticating pin_hash =>
          if starting_state.keystroke_register ++ [key] =
              [Key.One, Key.Two, Key.Three, Key.Four, Key.Enter] then
            some ⟨starting_state.cash_inside, Auth.Authenticated, []⟩
          else if key = Key.Enter ∧
              h (pinString (starting_state.keystroke_register ++ [key])) = pin_hash then
            Option.map (fun c => ⟨c, Auth.Waiting, []⟩)
              (csub starting_state.cash_inside 1)
          else if key = Key.Enter then
            some ⟨starting_state.cash_inside, Auth.Waiting, []⟩
          else
            some ⟨starting_state.cash_inside, Auth.Authenticating pin_hash,
                  starting_state.keystroke_register ++ [key]⟩
      | Auth.Authenticated =>
          if starting_state.keystroke_register ++ [key] =
              [Key.One, Key.Four, Key.Enter] then
            if 14 ≤ starting_state.cash_inside then
              some ⟨starting_state.cash_inside - 14, Auth.Waiting, []⟩
            else
              some ⟨starting_state.cash_inside, Auth.Waiting, []⟩
          else
            some ⟨starting_state.cash_inside, Auth.Authenticated,
                  starting_state.keystroke_register ++ [key]⟩

/-- Modelled from the spec: the digit value of a key, used by the
withdrawal-amount parser of spec section 4.2, which is absent from `src/`
(the `src/` engine hardcodes the withdrawal sequence instead). -/
def keyDigit : Key → Nat
  | Key.One => 1
  | Key.Two => 2
  | Key.Three => 3
  | Key.Four => 4
  | Key.Enter => 0

/-- Modelled from the spec: most-significant-digit-first decimal
accumulation over digits 1-4, with `Enter` terminating the scan
(spec section 4.2); absent from `src/`. -/
def parseAux (acc : Nat) : List Key → Nat
  | [] => acc
  | Key.Enter :: _ => acc
  | k :: rest => parseAux (10 * acc + keyDigit k) rest

/-- Modelled from the spec: the withdrawal-amount parser of spec
section 4.2; absent from `src/`. -/
def parseAmount (ks : List Key) : Nat :=
  parseAux 0 ks

/-- The constructor tag of an authentication phase, used to state the
amended buffer-reset invariant: `Waiting`, `Authenticating`, `Authenticated`. -/
def authTag : Auth → Nat
  | Auth.Waiting => 0
  | Auth.Authenticating _ => 1
  | Auth.Authenticated => 2

/-- A concrete instance of the hashing primitive, used for closed
evaluations: the length of the rendered keystroke string. The engine is
required to behave correctly for every supplied hash instance. -/
def hashLen (s : String) : Nat :=
  s.length

/-- C6: re-swiping while already `Authenticating` keeps the keystroke
register and the cash, and replaces the digest with the swiped one. -/
theorem c6_reswipe_preserves_buffer (h : String → Nat) (dOld d cash : Nat)
    (buf : List Key) :
    next_state h ⟨cash, Auth.Authenticating dOld, buf⟩ (Action.SwipeCard d)
      = some ⟨cash, Auth.Authenticating d, buf⟩ :=
  rfl

/-- C7: swiping while `Waiting` or `Authenticated` starts a fresh session:
phase `Authenticating d`, empty keystroke register, unchanged cash. -/
theorem c7_fresh_session (h : String → Nat) (d cash : Nat) (buf : List Key) :
    next_state h ⟨cash, Auth.Waiting, buf⟩ (Action.SwipeCard d)
        = some ⟨cash, Auth.Authenticating d, []⟩ ∧
    next_state h ⟨cash, Auth.Authenticated, buf⟩ (Action.SwipeCard d)
        = some ⟨cash, Auth.Authenticating d, []⟩ :=
  ⟨rfl, rfl⟩

/-- C8: a key press while `Waiting` with an empty keystroke register is the
identity on the state. -/
theorem c8_preauth_keys_noop (h : String → Nat) (k : Key) (cash : Nat) :
    next_state h ⟨cash, Auth.Waiting, []⟩ (Action.PressKey k)
      = some ⟨cash, Auth.Waiting, []⟩ :=
  rfl

/-- C1: evaluation of the engine at a failing input. With the hash
instance `hashLen`, the digest of the buffer `[Three, Three, Three, Three]`
excluding the terminating Enter is `4`; swiping digest `4` and pressing
Enter should, per the claim, authenticate, but the code hashes the buffer
including the Enter and resets to `Waiting`; and even when the code's own
comparison succeeds (digest `9`), the code moves to `Waiting` with
`cash_inside - 1`, never to `Authenticated`. -/
theorem c1_failing_input_eval :
    hashLen (pinString [Key.Three, Key.Three, Key.Three, Key.Three]) = 4 ∧
    next_state hashLen
        ⟨10, Auth.Authenticating 4, [Key.Three, Key.Three, Key.Three, Key.Three]⟩
        (Action.PressKey Key.Enter)
      = some ⟨10, Auth.Waiting, []⟩ ∧
    next_state hashLen
        ⟨10, Auth.Authenticating 9, [Key.Three, Key.Three, Key.Three, Key.Three]⟩
        (Action.PressKey Key.Enter)
      = some ⟨9, Auth.Waiting, []⟩ :=
  ⟨rfl, rfl, rfl⟩

/-- C3: evaluation of the engine at a failing input. With the hash
instance `hashLen`, the digest of `[Enter]` as hashed by the code is `5`;
from `cash_inside = 0`, phase `Authenticating 5`, empty buffer, pressing
Enter reaches the unguarded `cash_inside - 1`, which underflows `u64`:
the transition has no defined successor (`none` models the panic). -/
theorem c3_failing_input_eval :
    hashLen (pinString [Key.Enter]) = 5 ∧
    next_state hashLen ⟨0, Auth.Authenticating 5, []⟩ (Action.PressKey Key.Enter)
      = none :=
  ⟨rfl, rfl⟩

/-- C4: the spec-modelled parser satisfies the parsing equations, but the
concrete scenario fails on the code: from `Authenticated` with
`cash_inside = 10`, pressing One then Enter leaves the machine
`Authenticated` with buffer `[One, Enter]` and cash `10`, not `Waiting`
with cash `9` — no parser exists in `src/`, the withdrawal sequence is
hardcoded to `[One, Four, Enter]`. -/
theorem c4_parse_and_scenario :
    parseAmount [Key.One, Key.Four] = 14 ∧
    parseAmount [] = 0 ∧
    parseAmount [Key.Four, Key.Two, Key.Three] = 423 ∧
    next_state hashLen ⟨10, Auth.Authenticated, [Key.One]⟩ (Action.PressKey Key.Enter)
      = some ⟨10, Auth.Authenticated, [Key.One, Key.Enter]⟩ ∧
    next_state hashLen ⟨10, Auth.Authenticated, [Key.One]⟩ (Action.PressKey Key.Enter)
      ≠ some ⟨9, Auth.Waiting, []⟩ :=
  ⟨rfl, rfl, rfl, rfl, by decide⟩

/-- C2: counterexample to the claim as stated. From `Authenticated`,
`cash_inside = 10`, buffer `[One]` (amount `1 ≤ 10`), pressing Enter does
not produce `cash_inside = 9`, phase `Waiting`, empty buffer; the code
appends the Enter to the buffer and stays `Authenticated`. -/
theorem c2_counterexample :
    next_state hashLen ⟨10, Auth.Authenticated, [Key.One]⟩ (Action.PressKey Key.Enter)
      ≠ some ⟨9, Auth.Waiting, []⟩ ∧
    next_state hashLen ⟨10, Auth.Authenticated, [Key.One]⟩ (Action.PressKey Key.Enter)
      = some ⟨10, Auth.Authenticated, [Key.One, Key.Enter]⟩ :=
  ⟨by decide, rfl⟩

/-- C2 amended: from `Authenticated` with `cash_inside = C`, pressing
Enter performs a withdrawal only when the buffer is exactly `[One, Four]`
(hardcoded amount `14`): if `14 ≤ C` the result is `C - 14`, `Waiting`,
empty buffer; if `C < 14` the result is `C`, `Waiting`, empty buffer; for
every other buffer the Enter is appended and the phase stays
`Authenticated` with cash unchanged. -/
theorem c2_amended_hardcoded_withdrawal (h : String → Nat) (C : Nat) (buf : List Key) :
    (buf = [Key.One, Key.Four] → 14 ≤ C →
      next_state h ⟨C, Auth.Authenticated, buf⟩ (Action.PressKey Key.Enter)
        = some ⟨C - 14, Auth.Waiting, []⟩) ∧
    (buf = [Key.One, Key.Four] → C < 14 →
      next_state h ⟨C, Auth.Authenticated, buf⟩ (Action.PressKey Key.Enter)
        = some ⟨C, Auth.Waiting, []⟩) ∧
    (buf ≠ [Key.One, Key.Four] →
      next_state h ⟨C, Auth.Authenticated, buf⟩ (Action.PressKey Key.Enter)
        = some ⟨C, Auth.Authenticated, buf ++ [Key.Enter]⟩) := by
  refine ⟨?_, ?_, ?_⟩
  · rintro rfl hC
    simp [next_state, hC]
  · rintro rfl hC
    simp [next_state, Nat.not_le.mpr hC]
  · intro hne
    have hcond : ¬ (buf ++ [Key.Enter] = [Key.One, Key.Four, Key.Enter]) := by
      intro hEq
      exact hne (List.append_cancel_right hEq)
    simp [next_state, hcond]

/-- C2 amended, witness: the three branches at concrete inputs
(`C = 20` and `C = 10` with buffer `[One, Four]`; `C = 10` with
buffer `[One]`). -/
theorem c2_amended_witness :
    next_state hashLen ⟨20, Auth.Authenticated, [Key.One, Key.Four]⟩
        (Action.PressKey Key.Enter) = some ⟨6, Auth.Waiting, []⟩ ∧
    next_state hashLen ⟨10, Auth.Authenticated, [Key.One, Key.Four]⟩
        (Action.PressKey Key.Enter) = some ⟨10, Auth.Waiting, []⟩ ∧
    next_state hashLen ⟨10, Auth.Authenticated, [Key.One]⟩
        (Action.PressKey Key.Enter) = some ⟨10, Auth.Authenticated, [Key.One, Key.Enter]⟩ :=
  ⟨(c2_amended_hardcoded_withdrawal hashLen 20 [Key.One, Key.Four]).1 rfl (by decide),
   (c2_amended_hardcoded_withdrawal hashLen 10 [Key.One, Key.Four]).2.1 rfl (by decide),
   (c2_amended_hardcoded_withdrawal hashLen 10 [Key.One]).2.2 (by decide)⟩

/-- C5: whenever the buffer with the pressed key appended is exactly
`[One, Two, Three, Four, Enter]`, the engine moves from
`Authenticating d` to `Authenticated` with empty buffer and unchanged
cash, for every digest `d` and every hash instance. -/
theorem c5_hardcoded_sequence_authenticates (h : String → Nat) (d cash : Nat)
    (b : List Key) (k : Key)
    (hb : b ++ [k] = [Key.One, Key.Two, Key.Three, Key.Four, Key.Enter]) :
    next_state h ⟨cash, Auth.Authenticating d, b⟩ (Action.PressKey k)
      = some ⟨cash, Auth.Authenticated, []⟩ := by
  simp [next_state, hb]

/-- C5, witness: digest `0` (which is not the hash of the buffer under
`hashLen`), buffer `[One, Two, Three, Four]`, key Enter. -/
theorem c5_witness :
    next_state hashLen ⟨10, Auth.Authenticating 0, [Key.One, Key.Two, Key.Three, Key.Four]⟩
        (Action.PressKey Key.Enter) = some ⟨10, Auth.Authenticated, []⟩ :=
  c5_hardcoded_sequence_authenticates hashLen 0 10
    [Key.One, Key.Two, Key.Three, Key.Four] Key.Enter rfl

/-- C9: across every defined transition the cash never increases (and, as
a `Nat`, never goes negative), and the rejected withdrawal — buffer
`[One, Four]` requesting the hardcoded amount `14` with `cash < 14`,
terminated by Enter — leaves the cash unchanged. -/
theorem c9_cash_monotone (h : String → Nat) (cash : Nat) (auth : Auth)
    (reg : List Key) (e : Action) (sNext : Atm)
    (he : next_state h ⟨cash, auth, reg⟩ e = some sNext) :
    sNext.cash_inside ≤ cash ∧
    (auth = Auth.Authenticated → reg = [Key.One, Key.Four] → cash < 14 →
      e = Action.PressKey Key.Enter → sNext.cash_inside = cash) := by
  cases e with
  | SwipeCard d =>
      cases auth <;>
        (simp [next_state] at he; subst he;
         exact ⟨le_refl _, fun _ _ _ hE => absurd hE (by simp)⟩)
  | PressKey k =>
      cases auth with
      | Waiting =>
          simp [next_state] at he
          subst he
          exact ⟨le_refl _, fun hA => absurd hA (by simp)⟩
      | Authenticating d =>
          by_cases h5 : reg ++ [k] = [Key.One, Key.Two, Key.Three, Key.Four, Key.Enter]
          · simp [next_state, h5] at he
            subst he
            exact ⟨le_refl _, fun hA => absurd hA (by simp)⟩
          · by_cases h6 : k = Key.Enter ∧ h (pinString (reg ++ [k])) = d
            · obtain ⟨rfl, hhash⟩ := h6
              by_cases h7 : 1 ≤ cash
              · simp [next_state, h5, hhash, csub, h7] at he
                subst he
                exact ⟨Nat.sub_le cash 1, fun hA => absurd hA (by simp)⟩
              · simp [next_state, h5, hhash, csub, h7] at he
            · by_cases h8 : k = Key.Enter
              · subst h8
                simp at h6
                simp [next_state, h5, h6] at he
                subst he
                exact ⟨le_refl _, fun hA => absurd hA (by simp)⟩
              · simp [next_state, h5, h6, h8] at he
                subst he
                exact ⟨le_refl _, fun hA => absurd hA (by simp)⟩
      | Authenticated =>
          by_cases h9 : reg ++ [k] = [Key.One, Key.Four, Key.Enter]
          · by_cases h10 : 14 ≤ cash
            · simp [next_state, h9, h10] at he
              subst he
              exact ⟨Nat.sub_le cash 14, fun _ _ hlt _ => absurd hlt (Nat.not_lt.mpr h10)⟩
            · simp [next_state, h9, h10] at he
              subst he
              exact ⟨le_refl _, fun _ _ _ _ => rfl⟩
          · simp [next_state, h9] at he
            subst he
            refine ⟨le_refl _, fun _ hreg _ hE => ?_⟩
            exfalso
            apply h9
            injection hE with hk
            simp [hreg, hk]

/-- C9, witness: the rejected withdrawal (`cash = 10 < 14`, buffer
`[One, Four]`, Enter) keeps the cash at `10`. -/
theorem c9_witness :
    (Atm.mk 10 Auth.Waiting []).cash_inside ≤ 10 ∧
    (Atm.mk 10 Auth.Waiting []).cash_inside = 10 :=
  ⟨(c9_cash_monotone hashLen 10 Auth.Authenticated [Key.One, Key.Four]
      (Action.PressKey Key.Enter) ⟨10, Auth.Waiting, []⟩ rfl).1,
   (c9_cash_monotone hashLen 10 Auth.Authenticated [Key.One, Key.Four]
      (Action.PressKey Key.Enter) ⟨10, Auth.Waiting, []⟩ rfl).2 rfl rfl
      (by decide) rfl⟩

/-- C10: counterexample to the claim as stated: re-swiping with a
different digest changes the phase (from `Authenticating 1` to
`Authenticating 2`) while preserving a non-empty buffer. -/
theorem c10_counterexample :
    next_state hashLen ⟨10, Auth.Authenticating 1, [Key.One]⟩ (Action.SwipeCard 2)
      = some ⟨10, Auth.Authenticating 2, [Key.One]⟩ ∧
    Auth.Authenticating 2 ≠ Auth.Authenticating 1 ∧
    ([Key.One] : List Key) ≠ [] :=
  ⟨rfl, by decide, by decide⟩

/-- C10 amended: on every defined transition that changes the phase
constructor (`Waiting` / `Authenticating` / `Authenticated`), the
resulting keystroke register is empty; a re-swipe replaces the digest
inside `Authenticating` without clearing the buffer, and is the only
phase-value change that keeps it. -/
theorem c10_amended_tag_change_clears_buffer (h : String → Nat)
    (cash : Nat) (auth : Auth) (reg : List Key) (e : Action) (sNext : Atm)
    (he : next_state h ⟨cash, auth, reg⟩ e = some sNext)
    (htag : authTag sNext.expected_pin_hash ≠ authTag auth) :
    sNext.keystroke_register = [] := by
  cases e with
  | SwipeCard d =>
      cases auth with
      | Waiting =>
          simp [next_state] at he
          subst he
          rfl
      | Authenticating dOld =>
          simp [next_state] at he
          subst he
          exact absurd rfl htag
      | Authenticated =>
          simp [next_state] at he
          subst he
          rfl
  | PressKey k =>
      cases auth with
      | Waiting =>
          simp [next_state] at he
          subst he
          rfl
      | Authenticating d =>
          by_cases h5 : reg ++ [k] = [Key.One, Key.Two, Key.Three, Key.Four, Key.Enter]
          · simp [next_state, h5] at he
            subst he
            rfl
          · by_cases h6 : k = Key.Enter ∧ h (pinString (reg ++ [k])) = d
            · obtain ⟨rfl, hhash⟩ := h6
              by_cases h7 : 1 ≤ cash
              · simp [next_state, h5, hhash, csub, h7] at he
                subst he
                rfl
              · simp [next_state, h5, hhash, csub, h7] at he
            · by_cases h8 : k = Key.Enter
              · subst h8
                simp at h6
                simp [next_state, h5, h6] at he
                subst he
                rfl
              · simp [next_state, h5, h6, h8] at he
                subst he
                exact absurd rfl htag
      | Authenticated =>
          by_cases h9 : reg ++ [k] = [Key.One, Key.Four, Key.Enter]
          · by_cases h10 : 14 ≤ cash
            · simp [next_state, h9, h10] at he
              subst he
              rfl
            · simp [next_state, h9, h10] at he
              subst he
              rfl
          · simp [next_state, h9] at he
            subst he
            exact absurd rfl htag

/-- C10 amended, witness: a first swipe from `Waiting` with a stale
non-empty buffer changes the phase constructor and yields an empty
keystroke register. -/
theorem c10_amended_witness :
    (Atm.mk 10 (Auth.Authenticating 1) []).keystroke_register = [] :=
  c10_amended_tag_change_clears_buffer hashLen 10 Auth.Waiting [Key.One]
    (Action.SwipeCard 1) ⟨10, Auth.Authenticating 1, []⟩ rfl (by decide)

end AtmSM
